import Mathlib

/-!
Verification of the experience-learning pipeline of the mentaliststars_web
repository. The definitions below are shallow embeddings of the TypeScript
services in src/backend/src/services (ExperienceCapture, EnhancedChat,
KnowledgeBuilder) together with the relational schema in
src/backend/src/db/schema.sql. JavaScript floating-point numbers are
modelled as rationals; machine timestamps are naturals supplied as
explicit parameters. Store writes are modelled as explicit state passing
over list-backed tables.
-/

namespace MentalistStars

/-- Reaction categories stored in experiences.user_reaction
(schema.sql line 30 and ExperienceCapture.mapSentimentToReaction). -/
inductive Reaction where
  | amazed
  | engaged
  | neutral
  | skeptical
  | confused
deriving DecidableEq, Repr

/-- Embedding of ExperienceCapture.mapSentimentToReaction
(userIdentity.ts lines 560-566). -/
def mapSentimentToReaction (sentiment : ℚ) : Reaction :=
  if sentiment ≥ 7/10 then Reaction.amazed
  else if sentiment ≥ 3/10 then Reaction.engaged
  else if sentiment ≥ -3/10 then Reaction.neutral
  else if sentiment ≥ -7/10 then Reaction.skeptical
  else Reaction.confused

/-- Embedding of ExperienceCapture.mapReactionToRating
(userIdentity.ts lines 571-580); the lookup is total on the five
reaction values, so the 3.0 default branch of the source is unreachable. -/
def mapReactionToRating : Reaction → ℚ
  | Reaction.amazed => 5
  | Reaction.engaged => 4
  | Reaction.neutral => 3
  | Reaction.skeptical => 2
  | Reaction.confused => 1

/-- Row of the experiences table (schema.sql lines 22-39), as built by
ExperienceCapture.captureExperience (userIdentity.ts lines 383-399). -/
structure Experience where
  id : String
  mentalist_id : String
  user_id : String
  session_id : String
  timestamp : ℕ
  conversation_summary : String
  trick_performed : String
  user_reaction : Reaction
  user_sentiment : ℚ
  what_worked : String
  what_didnt_work : String
  lesson_learned : String
  message_count : ℕ
  duration_seconds : ℕ
  context : String
deriving DecidableEq, Repr

/-- Learning-state columns of a row of the mentalists table
(schema.sql lines 4-19). The static catalog columns (name, title,
tagline, avatar_url, system_prompt, knowledge_base, specialty_developing,
created_at) are never read or written by the experience pipeline and are
omitted. -/
structure Mentalist where
  id : String
  experience_level : ℕ
  total_performances : ℕ
  successful_tricks : List String
  learning_enabled : Bool
  last_performance : Option ℕ
deriving DecidableEq, Repr

/-- Embedding of ExperienceCapture.calculateExpGain
(userIdentity.ts lines 544-555). JavaScript string truthiness of
lessonLearned is nonemptiness. -/
def calculateExpGain (experience : Experience) : ℕ :=
  let exp1 := 10
  let exp2 := exp1 + (match experience.user_reaction with
    | Reaction.amazed => 20
    | Reaction.engaged => 10
    | Reaction.neutral => 5
    | _ => 0)
  let exp3 := if experience.lesson_learned ≠ "" then exp2 + 5 else exp2
  if experience.message_count > 10 then
    exp3 + min (experience.message_count - 10) 10
  else exp3

/-- Embedding of the per-row effect of ExperienceCapture.updateMentalistStats
(userIdentity.ts lines 439-470): increments total_performances, adds the
experience gain, stamps last_performance, and on an amazed or engaged
reaction appends the trick to the successful_tricks JSON array. -/
def updateMentalistStats (m : Mentalist) (experience : Experience) (now : ℕ) : Mentalist :=
  let expGain := calculateExpGain experience
  let m1 : Mentalist :=
    { m with
      total_performances := m.total_performances + 1,
      experience_level := m.experience_level + expGain,
      last_performance := some now }
  if experience.user_reaction = Reaction.amazed ∨ experience.user_reaction = Reaction.engaged then
    { m1 with successful_tricks := m1.successful_tricks ++ [experience.trick_performed] }
  else m1

/-- Reaction bonus table as stated in the specification (20/10/5/0/0 for
amazed/engaged/neutral/skeptical/confused). -/
def reactionBonus : Reaction → ℕ
  | Reaction.amazed => 20
  | Reaction.engaged => 10
  | Reaction.neutral => 5
  | Reaction.skeptical => 0
  | Reaction.confused => 0

lemma reaction_eq_amazed (s : ℚ) :
    mapSentimentToReaction s = Reaction.amazed ↔ 7/10 ≤ s := by
  unfold mapSentimentToReaction
  split_ifs with h1 h2 h3 h4 <;> simp <;>
    (intros; first | linarith | (constructor <;> linarith))

lemma reaction_eq_engaged (s : ℚ) :
    mapSentimentToReaction s = Reaction.engaged ↔ 3/10 ≤ s ∧ s < 7/10 := by
  unfold mapSentimentToReaction
  split_ifs with h1 h2 h3 h4 <;> simp <;>
    (intros; first | linarith | (constructor <;> linarith))

lemma reaction_eq_neutral (s : ℚ) :
    mapSentimentToReaction s = Reaction.neutral ↔ -3/10 ≤ s ∧ s < 3/10 := by
  unfold mapSentimentToReaction
  split_ifs with h1 h2 h3 h4 <;> simp <;>
    (intros; first | linarith | (constructor <;> linarith))

lemma reaction_eq_skeptical (s : ℚ) :
    mapSentimentToReaction s = Reaction.skeptical ↔ -7/10 ≤ s ∧ s < -3/10 := by
  unfold mapSentimentToReaction
  split_ifs with h1 h2 h3 h4 <;> simp <;>
    (intros; first | linarith | (constructor <;> linarith))

lemma reaction_eq_confused (s : ℚ) :
    mapSentimentToReaction s = Reaction.confused ↔ s < -7/10 := by
  unfold mapSentimentToReaction
  split_ifs with h1 h2 h3 h4 <;> simp <;>
    (intros; first | linarith | (constructor <;> linarith))

/-- C2: for every sentiment value s in [-1, 1], mapSentimentToReaction
returns exactly one of the five reactions, characterised by the
non-overlapping buckets s ≥ 0.7 (amazed), 0.3 ≤ s < 0.7 (engaged),
-0.3 ≤ s < 0.3 (neutral), -0.7 ≤ s < -0.3 (skeptical), s < -0.7
(confused); the boundary inputs 0.7, 0.3, -0.3, -0.7 map to amazed,
engaged, neutral and skeptical respectively. -/
theorem mapSentimentToReaction_buckets (s : ℚ) (hlo : -1 ≤ s) (hhi : s ≤ 1) :
    (mapSentimentToReaction s = Reaction.amazed ↔ 7/10 ≤ s) ∧
    (mapSentimentToReaction s = Reaction.engaged ↔ 3/10 ≤ s ∧ s < 7/10) ∧
    (mapSentimentToReaction s = Reaction.neutral ↔ -3/10 ≤ s ∧ s < 3/10) ∧
    (mapSentimentToReaction s = Reaction.skeptical ↔ -7/10 ≤ s ∧ s < -3/10) ∧
    (mapSentimentToReaction s = Reaction.confused ↔ s < -7/10) ∧
    mapSentimentToReaction (7/10) = Reaction.amazed ∧
    mapSentimentToReaction (3/10) = Reaction.engaged ∧
    mapSentimentToReaction (-3/10) = Reaction.neutral ∧
    mapSentimentToReaction (-7/10) = Reaction.skeptical :=
  ⟨reaction_eq_amazed s, reaction_eq_engaged s, reaction_eq_neutral s,
   reaction_eq_skeptical s, reaction_eq_confused s,
   (reaction_eq_amazed _).mpr (by norm_num),
   (reaction_eq_engaged _).mpr (by norm_num),
   (reaction_eq_neutral _).mpr (by norm_num),
   (reaction_eq_skeptical _).mpr (by norm_num)⟩

/-- Witness for C2: at the concrete sentiment 0.5 the theorem yields the
engaged reaction. -/
theorem mapSentimentToReaction_buckets_witness :
    mapSentimentToReaction (1/2) = Reaction.engaged :=
  (mapSentimentToReaction_buckets (1/2) (by norm_num) (by norm_num)).2.1.mpr
    (by norm_num)

lemma calculateExpGain_eq (e : Experience) :
    calculateExpGain e
      = 10 + reactionBonus e.user_reaction
          + (if e.lesson_learned ≠ "" then 5 else 0)
          + (min (max ((e.message_count : ℤ) - 10) 0) 10).toNat := by
  cases hu : e.user_reaction <;>
    simp only [calculateExpGain, reactionBonus, hu] <;>
    split_ifs <;> omega

/-- C3: the experience-level increment equals
10 + reactionBonus + (5 if the lesson is non-empty) + min(max(turnCount-10,0),10),
and total_performances increases by exactly 1. -/
theorem updateMentalistStats_counters (m : Mentalist) (e : Experience) (now : ℕ) :
    (updateMentalistStats m e now).experience_level
      = m.experience_level
        + (10 + reactionBonus e.user_reaction
            + (if e.lesson_learned ≠ "" then 5 else 0)
            + (min (max ((e.message_count : ℤ) - 10) 0) 10).toNat) ∧
    (updateMentalistStats m e now).total_performances = m.total_performances + 1 := by
  refine ⟨?_, ?_⟩ <;>
    (unfold updateMentalistStats; split_ifs <;> simp_all [calculateExpGain_eq])

/-- Success test used throughout the pipeline: a reaction counts as a
success when it is amazed or engaged (the inline test at
userIdentity.ts lines 456 and 488). -/
def isSuccessReaction (r : Reaction) : Bool :=
  r == Reaction.amazed || r == Reaction.engaged

/-- Row of the performance_metrics table (schema.sql lines 48-62). The
JSON-array columns best_contexts, common_failures and refinements are
written once as empty arrays and never updated, and are kept as plain
strings. -/
structure MetricRow where
  id : String
  mentalist_id : String
  trick_name : String
  total_attempts : ℕ
  success_count : ℕ
  success_rate : ℚ
  average_user_rating : ℚ
  last_updated : ℕ
deriving DecidableEq, Repr

/-- Embedding of the row-level effect of ExperienceCapture.updateTrickMetrics
(userIdentity.ts lines 475-538): given the existing row for the
(mentalist, trick) pair if any, produce the row that is written back
(the UPDATE branch applies the online update; the INSERT branch creates
the row with one attempt). -/
def updateTrickMetricsRow (mentalistId : String) (existing : Option MetricRow)
    (e : Experience) (now : ℕ) : MetricRow :=
  let isSucc := isSuccessReaction e.user_reaction
  let rating := mapReactionToRating e.user_reaction
  match existing with
  | some ex =>
      let newTotal := ex.total_attempts + 1
      let newSuccessCount := ex.success_count + (if isSucc then 1 else 0)
      let newSuccessRate : ℚ := (newSuccessCount : ℚ) / (newTotal : ℚ)
      let newAvgRating : ℚ :=
        (ex.average_user_rating * (ex.total_attempts : ℚ) + rating) / (newTotal : ℚ)
      { ex with
        total_attempts := newTotal,
        success_count := newSuccessCount,
        success_rate := newSuccessRate,
        average_user_rating := newAvgRating,
        last_updated := now }
  | none =>
      { id := mentalistId ++ "_" ++ e.trick_performed,
        mentalist_id := mentalistId,
        trick_name := e.trick_performed,
        total_attempts := 1,
        success_count := if isSucc then 1 else 0,
        success_rate := if isSucc then 1 else 0,
        average_user_rating := rating,
        last_updated := now }

/-- Sequence of n metric updates on a fresh (mentalist, technique) pair:
the first call creates the row, each later call applies the online
update to the row read back. Timestamps do not enter any aggregate and
are fixed to 0. -/
def applyExperiences (mentalistId : String) (l : List Experience) : Option MetricRow :=
  l.foldl (fun acc e => some (updateTrickMetricsRow mentalistId acc e 0)) none

lemma foldl_some_updateTrickMetrics (mid : String) (l : List Experience) (row : MetricRow) :
    l.foldl (fun acc e => some (updateTrickMetricsRow mid acc e 0)) (some row)
      = some (l.foldl (fun acc e => updateTrickMetricsRow mid (some acc) e 0) row) := by
  induction l generalizing row with
  | nil => rfl
  | cons e es ih => simp [List.foldl_cons, ih]

lemma applyExperiences_loop (mid : String) (l : List Experience) :
    ∀ (row : MetricRow) (S : ℚ),
    row.success_rate = (row.success_count : ℚ) / (row.total_attempts : ℚ) →
    0 < row.total_attempts →
    row.average_user_rating = S / (row.total_attempts : ℚ) →
    (l.foldl (fun acc e => updateTrickMetricsRow mid (some acc) e 0) row).total_attempts
        = row.total_attempts + l.length ∧
    (l.foldl (fun acc e => updateTrickMetricsRow mid (some acc) e 0) row).success_count
        = row.success_count + l.countP (fun e => isSuccessReaction e.user_reaction) ∧
    (l.foldl (fun acc e => updateTrickMetricsRow mid (some acc) e 0) row).success_rate
        = ((l.foldl (fun acc e => updateTrickMetricsRow mid (some acc) e 0) row).success_count : ℚ)
            / ((l.foldl (fun acc e => updateTrickMetricsRow mid (some acc) e 0) row).total_attempts : ℚ) ∧
    (l.foldl (fun acc e => updateTrickMetricsRow mid (some acc) e 0) row).average_user_rating
        = (S + (l.map (fun e => mapReactionToRating e.user_reaction)).sum)
            / ((l.foldl (fun acc e => updateTrickMetricsRow mid (some acc) e 0) row).total_attempts : ℚ) := by
  induction l with
  | nil =>
      intro row S hrate hpos havg
      refine ⟨by simp, by simp, by simpa using hrate, ?_⟩
      simpa using havg
  | cons e es ih =>
      intro row S hrate hpos havg
      have hn : (row.total_attempts : ℚ) ≠ 0 := by
        exact_mod_cast Nat.pos_iff_ne_zero.mp hpos
      have hmulS : row.average_user_rating * (row.total_attempts : ℚ) = S := by
        rw [havg]
        field_simp
      have hrow1 : updateTrickMetricsRow mid (some row) e 0 =
          { row with
            total_attempts := row.total_attempts + 1,
            success_count := row.success_count
              + (if isSuccessReaction e.user_reaction then 1 else 0),
            success_rate := ((row.success_count
              + (if isSuccessReaction e.user_reaction then 1 else 0) : ℕ) : ℚ)
                / ((row.total_attempts + 1 : ℕ) : ℚ),
            average_user_rating := (row.average_user_rating * (row.total_attempts : ℚ)
              + mapReactionToRating e.user_reaction) / ((row.total_attempts + 1 : ℕ) : ℚ),
            last_updated := 0 } := rfl
      have h1 := ih (updateTrickMetricsRow mid (some row) e 0)
        (S + mapReactionToRating e.user_reaction) (by rw [hrow1]) (by rw [hrow1]; exact Nat.succ_pos _)
        (by rw [hrow1]; simp only [hmulS])
      obtain ⟨ht, hc, hsr, hav⟩ := h1
      rw [List.foldl_cons]
      refine ⟨?_, ?_, hsr, ?_⟩
      · rw [ht, hrow1]
        simp [List.length_cons]
        omega
      · rw [hc, hrow1]
        simp [List.countP_cons]
        omega
      · rw [hav]
        simp only [List.map_cons, List.sum_cons]
        ring_nf

/-- C1: after n metric updates on a fresh (persona, technique) pair the
row satisfies totalAttempts = n, successRate = successCount / n exactly,
and averageRating is the arithmetic mean of the n ratings supplied
(exact over the rational model of the floating-point update). -/
theorem updateTrickMetrics_running_stats (mid : String) (l : List Experience)
    (row : MetricRow) (h : applyExperiences mid l = some row) :
    row.total_attempts = l.length ∧
    row.success_count = l.countP (fun e => isSuccessReaction e.user_reaction) ∧
    row.success_rate = (row.success_count : ℚ) / (l.length : ℚ) ∧
    row.average_user_rating
      = ((l.map (fun e => mapReactionToRating e.user_reaction)).sum) / (l.length : ℚ) := by
  match l with
  | [] => simp [applyExperiences] at h
  | e :: es =>
      rw [applyExperiences, List.foldl_cons,
        foldl_some_updateTrickMetrics, Option.some_inj] at h
      have hrow0 : updateTrickMetricsRow mid none e 0 =
          { id := mid ++ "_" ++ e.trick_performed,
            mentalist_id := mid,
            trick_name := e.trick_performed,
            total_attempts := 1,
            success_count := if isSuccessReaction e.user_reaction then 1 else 0,
            success_rate := if isSuccessReaction e.user_reaction then 1 else 0,
            average_user_rating := mapReactionToRating e.user_reaction,
            last_updated := 0 } := rfl
      have hbase := applyExperiences_loop mid es (updateTrickMetricsRow mid none e 0)
        (mapReactionToRating e.user_reaction) ?_ ?_ ?_
      · obtain ⟨ht, hc, hsr, hav⟩ := hbase
        rw [h] at *
        refine ⟨?_, ?_, ?_, ?_⟩
        · rw [ht, hrow0]
          simp [Nat.add_comm]
        · rw [hc, hrow0]
          simp [List.countP_cons]
          cases hb : isSuccessReaction e.user_reaction <;> simp <;> omega
        · rw [hsr, ht, hrow0]
          simp [Nat.add_comm]
        · rw [hav, ht, hrow0]
          simp [Nat.add_comm]
      · rw [hrow0]
        cases hb : isSuccessReaction e.user_reaction <;> simp
      · rw [hrow0]
        exact Nat.one_pos
      · rw [hrow0]
        simp

/-- Concrete first session of the end-to-end scenario in the
specification: amazed reaction on the card_force technique. -/
def expAmazed : Experience :=
  { id := "exp1", mentalist_id := "oz", user_id := "user1", session_id := "sess1",
    timestamp := 100, conversation_summary := "summary",
    trick_performed := "card_force", user_reaction := Reaction.amazed,
    user_sentiment := 8/10, what_worked := "confidence", what_didnt_work := "",
    lesson_learned := "smile more", message_count := 6, duration_seconds := 60,
    context := "opening" }

/-- Concrete second session of the end-to-end scenario in the
specification: skeptical reaction on the same technique. -/
def expSkeptical : Experience :=
  { id := "exp2", mentalist_id := "oz", user_id := "user1", session_id := "sess2",
    timestamp := 200, conversation_summary := "summary",
    trick_performed := "card_force", user_reaction := Reaction.skeptical,
    user_sentiment := -1/2, what_worked := "", what_didnt_work := "",
    lesson_learned := "", message_count := 4, duration_seconds := 30,
    context := "" }

/-- Metric row expected after the two scenario sessions. -/
def c1WitnessRow : MetricRow :=
  { id := "oz_card_force", mentalist_id := "oz", trick_name := "card_force",
    total_attempts := 2, success_count := 1, success_rate := 1/2,
    average_user_rating := 7/2, last_updated := 0 }

/-- Witness for C1: the two-session scenario of the specification
instantiates the theorem, giving totalAttempts 2, successRate 1/2 and
averageRating 3.5. -/
theorem updateTrickMetrics_running_stats_witness :
    c1WitnessRow.total_attempts = 2 ∧
    c1WitnessRow.success_rate = (c1WitnessRow.success_count : ℚ) / 2 ∧
    c1WitnessRow.average_user_rating = 7/2 := by
  have happ : applyExperiences "oz" [expAmazed, expSkeptical] = some c1WitnessRow := by
    simp [applyExperiences, updateTrickMetricsRow, expAmazed, expSkeptical,
      isSuccessReaction, mapReactionToRating, c1WitnessRow]
    norm_num
  have h := updateTrickMetrics_running_stats "oz" [expAmazed, expSkeptical]
    c1WitnessRow happ
  obtain ⟨ht, _hc, hsr, hav⟩ := h
  refine ⟨ht, ?_, ?_⟩
  · simpa using hsr
  · rw [hav]
    simp [expAmazed, expSkeptical, mapReactionToRating]
    norm_num

/-- Learning-state tables touched by ExperienceCapture.captureExperience:
mentalists, experiences and performance_metrics (schema.sql). -/
structure Store where
  mentalists : List Mentalist
  experiences : List Experience
  metrics : List MetricRow
deriving DecidableEq, Repr

/-- Step 1 of captureExperience: the INSERT INTO experiences statement
(userIdentity.ts lines 402-425). -/
def insertExperience (st : Store) (e : Experience) : Store :=
  { st with experiences := st.experiences ++ [e] }

/-- Step 2 of captureExperience: the UPDATE mentalists statements of
updateMentalistStats applied to the row whose id matches
(userIdentity.ts lines 447-468). -/
def updateMentalistStatsStore (st : Store) (mentalistId : String) (e : Experience)
    (now : ℕ) : Store :=
  { st with
    mentalists := st.mentalists.map
      (fun m => if m.id = mentalistId then updateMentalistStats m e now else m) }

/-- The SELECT of the existing performance_metrics row for a
(mentalist, trick) pair (userIdentity.ts lines 483-486). -/
def findMetric (metrics : List MetricRow) (mentalistId trick : String) : Option MetricRow :=
  metrics.find? (fun r => r.mentalist_id == mentalistId && r.trick_name == trick)

/-- Step 3 of captureExperience on the performance_metrics table: UPDATE
the found row keyed by its id, or INSERT a fresh row
(userIdentity.ts lines 491-538). -/
def updateMetricsList (metrics : List MetricRow) (mentalistId : String) (e : Experience)
    (now : ℕ) : List MetricRow :=
  match findMetric metrics mentalistId e.trick_performed with
  | some ex =>
      metrics.map (fun r =>
        if r.id = ex.id then updateTrickMetricsRow mentalistId (some ex) e now else r)
  | none => metrics ++ [updateTrickMetricsRow mentalistId none e now]

/-- Store-level step 3 of captureExperience. -/
def updateTrickMetricsStore (st : Store) (mentalistId : String) (e : Experience)
    (now : ℕ) : Store :=
  { st with metrics := updateMetricsList st.metrics mentalistId e now }

/-- Embedding of ExperienceCapture.captureExperience
(userIdentity.ts lines 371-434): three sequential store writes, with no
surrounding transaction in the source. The experience record e is the
one built at lines 383-399 from the analysis. -/
def captureExperience (st : Store) (e : Experience) (now : ℕ) : Store :=
  updateTrickMetricsStore
    (updateMentalistStatsStore (insertExperience st e) e.mentalist_id e now)
    e.mentalist_id e now

/-- Freshly provisioned mentalist row (the INSERT of /api/mentalist/init
with zero counters). -/
def ozMentalist : Mentalist :=
  { id := "oz", experience_level := 0, total_performances := 0,
    successful_tricks := [], learning_enabled := true, last_performance := none }

/-- Store holding only the freshly provisioned mentalist. -/
def store0 : Store :=
  { mentalists := [ozMentalist], experiences := [], metrics := [] }

/-- C4 exhibit: captureExperience is not atomic. The state reached when a
failure is injected right after the experiences INSERT (modelled by
applying only insertExperience) already exposes the Outcome row to
readers while total_performances is still 0, so it differs observably
both from the initial state and from the state after the full
captureExperience, contradicting the all-or-nothing guarantee. -/
theorem captureExperience_intermediate_state_readable :
    ((insertExperience store0 expAmazed).experiences.map (fun e => e.id) = ["exp1"]) ∧
    ((insertExperience store0 expAmazed).mentalists.map
        (fun m => m.total_performances) = [0]) ∧
    (store0.experiences.map (fun e => e.id) = []) ∧
    ((captureExperience store0 expAmazed 100).mentalists.map
        (fun m => m.total_performances) = [1]) ∧
    ((captureExperience store0 expAmazed 100).metrics.map
        (fun r => r.total_attempts) = [1]) ∧
    ((insertExperience store0 expAmazed).metrics.map
        (fun r => r.total_attempts) = []) := by
  refine ⟨rfl, rfl, rfl, ?_, ?_, rfl⟩ <;> rfl

/-- C9 counterexample: two amazed captures of the same technique leave a
duplicate entry in successful_tricks, refuting the claim that the stored
collection never holds duplicate entries for the same technique name. -/
theorem successful_tricks_duplicate_counterexample :
    ((updateMentalistStats (updateMentalistStats ozMentalist expAmazed 1) expAmazed 2).successful_tricks
      = ["card_force", "card_force"]) ∧
    ¬ ((updateMentalistStats (updateMentalistStats ozMentalist expAmazed 1) expAmazed 2).successful_tricks).Nodup := by
  refine ⟨rfl, ?_⟩
  decide

/-- C9 amended: successful_tricks is an append-only list, not a
deduplicated set. A capture with an amazed or engaged reaction appends
the technique (so membership only grows and every previously stored
technique is retained), any other reaction leaves the list unchanged,
and duplicates accumulate on repeated successes. -/
theorem updateMentalistStats_tricks_append (m : Mentalist) (e : Experience) (now : ℕ) :
    (updateMentalistStats m e now).successful_tricks
      = (if e.user_reaction = Reaction.amazed ∨ e.user_reaction = Reaction.engaged
         then m.successful_tricks ++ [e.trick_performed]
         else m.successful_tricks) ∧
    List.Sublist m.successful_tricks (updateMentalistStats m e now).successful_tricks := by
  unfold updateMentalistStats
  split_ifs with h <;> simp

/-- Projection that forgets the learning_enabled flag of a mentalist row
by forcing it to a fixed value. -/
def scrubLearning (m : Mentalist) : Mentalist :=
  { m with learning_enabled := true }

/-- Two stores agree except possibly on the learning_enabled flags of
their mentalist rows. -/
def agreeExceptLearning (s1 s2 : Store) : Prop :=
  s1.mentalists.map scrubLearning = s2.mentalists.map scrubLearning ∧
  s1.experiences = s2.experiences ∧
  s1.metrics = s2.metrics

lemma scrub_updateMentalistStats (m : Mentalist) (e : Experience) (now : ℕ) :
    scrubLearning (updateMentalistStats m e now)
      = updateMentalistStats (scrubLearning m) e now := by
  unfold updateMentalistStats scrubLearning
  split_ifs <;> rfl

lemma map_scrub_update (mid : String) (e : Experience) (now : ℕ) :
    ∀ (l1 l2 : List Mentalist), l1.map scrubLearning = l2.map scrubLearning →
    (l1.map (fun m => if m.id = mid then updateMentalistStats m e now else m)).map scrubLearning
      = (l2.map (fun m => if m.id = mid then updateMentalistStats m e now else m)).map scrubLearning := by
  intro l1
  induction l1 with
  | nil =>
      intro l2 h
      cases l2 with
      | nil => rfl
      | cons b t => simp at h
  | cons a t ih =>
      intro l2 h
      cases l2 with
      | nil => simp at h
      | cons b t2 =>
          simp only [List.map_cons, List.cons.injEq] at h ⊢
          obtain ⟨hab, ht⟩ := h
          have hid : a.id = b.id := by
            have h2 := congrArg Mentalist.id hab
            simpa [scrubLearning] using h2
          refine ⟨?_, ih t2 ht⟩
          by_cases hc : a.id = mid
          · have hcb : b.id = mid := by rw [← hid]; exact hc
            rw [if_pos hc, if_pos hcb, scrub_updateMentalistStats,
              scrub_updateMentalistStats, hab]
          · have hcb : ¬ b.id = mid := by rw [← hid]; exact hc
            rw [if_neg hc, if_neg hcb]
            exact hab

/-- C10: captureExperience never reads learning_enabled. Starting from any
two stores that differ only in learning_enabled flags, the three writes
of captureExperience produce stores that again differ at most in those
flags: the recorded Outcome, the counter increments and the metric
update are identical, whether or not learning is enabled. -/
theorem captureExperience_ignores_learning_enabled (s1 s2 : Store) (e : Experience)
    (now : ℕ) (h : agreeExceptLearning s1 s2) :
    agreeExceptLearning (captureExperience s1 e now) (captureExperience s2 e now) := by
  obtain ⟨hm, he, hmet⟩ := h
  unfold captureExperience updateTrickMetricsStore updateMentalistStatsStore insertExperience
  refine ⟨?_, ?_, ?_⟩
  · simpa using map_scrub_update e.mentalist_id e now s1.mentalists s2.mentalists hm
  · simpa using he
  · simp [hmet]

/-- Same store as store0 but with learning disabled for the mentalist. -/
def storeLearnOff : Store :=
  { mentalists := [{ ozMentalist with learning_enabled := false }],
    experiences := [], metrics := [] }

/-- Witness for C10: capturing the scenario experience over the store with
learning enabled and over the store with learning disabled gives stores
agreeing on everything except the flag. -/
theorem captureExperience_ignores_learning_enabled_witness :
    agreeExceptLearning (captureExperience store0 expAmazed 100)
      (captureExperience storeLearnOff expAmazed 100) :=
  captureExperience_ignores_learning_enabled store0 storeLearnOff expAmazed 100
    ⟨rfl, rfl, rfl⟩

/-- Row of the chat_sessions table (schema.sql lines 87-96). -/
structure ChatSession where
  id : String
  user_id : String
  mentalist_id : String
  start_time : ℕ
  end_time : Option ℕ
  is_active : Bool
  message_count : ℕ
deriving DecidableEq, Repr

/-- Row of the session_messages table (schema.sql lines 103-110). -/
structure SessionMessage where
  id : String
  session_id : String
  role : String
  content : String
  timestamp : ℕ
deriving DecidableEq, Repr

/-- Tables touched by the EnhancedChat session manager. -/
structure ChatStore where
  sessions : List ChatSession
  messages : List SessionMessage
deriving DecidableEq, Repr

/-- Row filter of the active-session SELECT in getOrCreateSession
(userIdentity.ts lines 185-190): user, mentalist and is_active = 1. -/
def matchingActive (userId mentalistId : String) (s : ChatSession) : Bool :=
  s.user_id == userId && s.mentalist_id == mentalistId && s.is_active

/-- ORDER BY start_time DESC LIMIT 1 over the filtered rows, modelled
deterministically: the row with maximal start_time, earliest in
insertion order among ties. -/
def latestByStart : List ChatSession → Option ChatSession
  | [] => none
  | s :: rest =>
      match latestByStart rest with
      | none => some s
      | some t => if t.start_time > s.start_time then some t else some s

/-- The active-session lookup of getOrCreateSession. -/
def findActiveSession (st : ChatStore) (userId mentalistId : String) : Option ChatSession :=
  latestByStart (st.sessions.filter (matchingActive userId mentalistId))

/-- Row inserted by getOrCreateSession when no active session exists
(userIdentity.ts lines 197-201): active with zero message count. -/
def freshSession (userId mentalistId freshId : String) (now : ℕ) : ChatSession :=
  { id := freshId, user_id := userId, mentalist_id := mentalistId,
    start_time := now, end_time := none, is_active := true,
    message_count := 0 }

/-- Embedding of EnhancedChat.getOrCreateSession
(userIdentity.ts lines 179-204): return the id of the most recent active
session for the pair if one exists, else insert a new active session
with the freshly generated id (the Date.now/random id generation is
modelled by the freshId parameter) and return that id. -/
def getOrCreateSession (st : ChatStore) (userId mentalistId freshId : String)
    (now : ℕ) : String × ChatStore :=
  match findActiveSession st userId mentalistId with
  | some s => (s.id, st)
  | none =>
      (freshId,
       { st with sessions := st.sessions ++ [freshSession userId mentalistId freshId now] })

/-- Embedding of EnhancedChat.endSession (userIdentity.ts lines 251-257):
UPDATE chat_sessions SET is_active = 0, end_time = now WHERE id = sid. -/
def endSession (st : ChatStore) (sessionId : String) (now : ℕ) : ChatStore :=
  { st with
    sessions := st.sessions.map (fun s =>
      if s.id = sessionId then { s with is_active := false, end_time := some now }
      else s) }

/-- Error surfaced by a failed store statement; unknownSession models the
foreign-key violation of session_messages.session_id (schema.sql
line 109) raised when the referenced chat_sessions row is absent. -/
inductive DbError where
  | unknownSession
deriving DecidableEq, Repr

/-- Embedding of EnhancedChat.saveMessage (userIdentity.ts lines 209-226):
INSERT one session_messages row, then UPDATE the message_count of the
session. The INSERT honours the foreign key declared in schema.sql
(enforced by the D1 store), so it fails when no chat_sessions row has
the given id. -/
def saveMessage (st : ChatStore) (sessionId role content msgId : String)
    (now : ℕ) : Except DbError ChatStore :=
  if st.sessions.any (fun s => s.id == sessionId) then
    Except.ok
      { st with
        messages := st.messages ++
          [{ id := msgId, session_id := sessionId, role := role,
             content := content, timestamp := now }],
        sessions := st.sessions.map (fun s =>
          if s.id = sessionId then { s with message_count := s.message_count + 1 }
          else s) }
  else Except.error DbError.unknownSession

/-- Session row that has already been ended at time 100. -/
def endedSessionRow : ChatSession :=
  { id := "s", user_id := "u", mentalist_id := "oz", start_time := 0,
    end_time := some 100, is_active := false, message_count := 3 }

/-- Store holding only the already-ended session. -/
def chatStoreEnded : ChatStore :=
  { sessions := [endedSessionRow], messages := [] }

/-- C6 counterexample: calling endSession again at time 200 on a session
already ended at time 100 changes the stored state, overwriting the
endedAt timestamp (100 becomes 200), so the repeated call does not leave
the stored state unchanged. -/
theorem endSession_not_idempotent :
    (endSession chatStoreEnded "s" 200 ≠ chatStoreEnded) ∧
    ((endSession chatStoreEnded "s" 200).sessions.map (fun s => s.end_time)
      = [some 200]) ∧
    (chatStoreEnded.sessions.map (fun s => s.end_time) = [some 100]) := by
  refine ⟨?_, rfl, rfl⟩
  decide

/-- C6 amended: repeating endSession keeps the active flag false but
overwrites endedAt with the timestamp of the later call: ending an
already-ended session is equivalent to a single endSession at the new
time, so the state is unchanged exactly when the timestamp is unchanged. -/
theorem endSession_repeat_overwrites (st : ChatStore) (sid : String) (t1 t2 : ℕ) :
    endSession (endSession st sid t1) sid t2 = endSession st sid t2 := by
  unfold endSession
  simp only [List.map_map]
  congr 1
  induction st.sessions with
  | nil => rfl
  | cons a l ih =>
      simp only [List.map_cons, ih]
      congr 1
      by_cases h : a.id = sid <;> simp [Function.comp, h]

/-- C7: saveMessage on a session id absent from the store fails with the
unknownSession error instead of succeeding; on a present session id it
returns a store with exactly one appended message row and the message
count of the session incremented by exactly 1 (other sessions
unchanged). -/
theorem saveMessage_spec (st : ChatStore) (sid role content msgId : String) (t : ℕ) :
    ((∀ s ∈ st.sessions, ¬ s.id = sid) →
      saveMessage st sid role content msgId t = Except.error DbError.unknownSession) ∧
    (∀ s0 ∈ st.sessions, s0.id = sid →
      saveMessage st sid role content msgId t =
        Except.ok
          { sessions := st.sessions.map (fun s =>
              if s.id = sid then { s with message_count := s.message_count + 1 }
              else s),
            messages := st.messages ++
              [{ id := msgId, session_id := sid, role := role,
                 content := content, timestamp := t }] }) := by
  constructor
  · intro hall
    unfold saveMessage
    rw [if_neg]
    intro hany
    rw [List.any_eq_true] at hany
    obtain ⟨s, hs, heq⟩ := hany
    exact hall s hs (by simpa using heq)
  · intro s0 hs0 hid
    unfold saveMessage
    rw [if_pos]
    rw [List.any_eq_true]
    exact ⟨s0, hs0, by simpa using hid⟩

/-- Session row that is still active. -/
def liveSessionRow : ChatSession :=
  { id := "s", user_id := "u", mentalist_id := "oz", start_time := 0,
    end_time := none, is_active := true, message_count := 3 }

/-- Store holding only the live session. -/
def chatStoreLive : ChatStore :=
  { sessions := [liveSessionRow], messages := [] }

/-- Store with no sessions at all. -/
def emptyChatStore : ChatStore :=
  { sessions := [], messages := [] }

/-- Live session row after one message append: count bumped to 4. -/
def bumpedSessionRow : ChatSession :=
  { id := "s", user_id := "u", mentalist_id := "oz", start_time := 0,
    end_time := none, is_active := true, message_count := 4 }

/-- The message row appended by the C7 witness. -/
def savedMessageRow : SessionMessage :=
  { id := "m1", session_id := "s", role := "user", content := "hi",
    timestamp := 5 }

/-- Witness for C7: on the empty store the append fails with
unknownSession; on the store holding the live session it appends the
message and bumps the count from 3 to 4. -/
theorem saveMessage_spec_witness :
    (saveMessage emptyChatStore "s" "user" "hi" "m1" 5
      = Except.error DbError.unknownSession) ∧
    (saveMessage chatStoreLive "s" "user" "hi" "m1" 5
      = Except.ok { sessions := [bumpedSessionRow], messages := [savedMessageRow] }) := by
  constructor
  · exact (saveMessage_spec emptyChatStore "s" "user" "hi" "m1" 5).1
      (by intro s hs; simp [emptyChatStore] at hs)
  · have h := (saveMessage_spec chatStoreLive "s" "user" "hi" "m1" 5).2
      liveSessionRow (by simp [chatStoreLive]) rfl
    simpa [chatStoreLive, liveSessionRow, bumpedSessionRow, savedMessageRow] using h

lemma latestByStart_eq_none (l : List ChatSession) :
    latestByStart l = none ↔ l = [] := by
  cases l with
  | nil => simp [latestByStart]
  | cons s rest =>
      simp only [latestByStart]
      cases h : latestByStart rest with
      | none => simp
      | some t =>
          dsimp only
          split_ifs <;> simp

lemma latestByStart_mem (l : List ChatSession) (s : ChatSession)
    (h : latestByStart l = some s) : s ∈ l := by
  induction l with
  | nil => simp [latestByStart] at h
  | cons a rest ih =>
      simp only [latestByStart] at h
      cases ht : latestByStart rest with
      | none =>
          rw [ht] at h
          dsimp only at h
          simp only [Option.some_inj] at h
          subst h
          exact List.mem_cons_self a rest
      | some t =>
          rw [ht] at h
          dsimp only at h
          split_ifs at h with hc
          · simp only [Option.some_inj] at h
            subst h
            exact List.mem_cons_of_mem a (ih ht)
          · simp only [Option.some_inj] at h
            subst h
            exact List.mem_cons_self a rest

lemma findActiveSession_eq_none (st : ChatStore) (u p : String) :
    findActiveSession st u p = none
      ↔ ∀ s ∈ st.sessions, ¬ matchingActive u p s = true := by
  unfold findActiveSession
  rw [latestByStart_eq_none, List.filter_eq_nil]

lemma matchingActive_end_update (u p sid : String) (t : ℕ) (y : ChatSession) :
    matchingActive u p
        (if y.id = sid then { y with is_active := false, end_time := some t } else y)
      = (matchingActive u p y && !(y.id == sid)) := by
  by_cases h : y.id = sid <;> simp [matchingActive, h, beq_iff_eq]

lemma findActiveSession_after_end (st : ChatStore) (u p sid : String) (t : ℕ)
    (h : ∀ s ∈ st.sessions, matchingActive u p s = true → s.id = sid) :
    findActiveSession (endSession st sid t) u p = none := by
  rw [findActiveSession_eq_none]
  intro x hx
  unfold endSession at hx
  simp only [List.mem_map] at hx
  obtain ⟨y, hy, rfl⟩ := hx
  rw [matchingActive_end_update]
  intro hcontra
  simp only [Bool.and_eq_true, Bool.not_eq_eq_eq_not, Bool.not_true,
    beq_eq_false_iff_ne, ne_eq] at hcontra
  exact hcontra.2 (h y hy hcontra.1)

/-- C5: with no intervening endSession, two immediate getOrCreateSession
calls for the same (userId, personaId) pair return the same session id;
after endSession on that session, the next getOrCreateSession for the
pair returns a different id. Hypotheses: the store respects the
at-most-one-active-session-per-pair invariant, and the id generated for
the second creation is fresh and distinct from the first. -/
theorem getOrCreateSession_lifecycle (st : ChatStore) (u p f1 f2 : String)
    (t1 t2 t3 t4 : ℕ)
    (hone : (st.sessions.filter (matchingActive u p)).length ≤ 1)
    (hfresh : ∀ s ∈ st.sessions, s.id ≠ f2)
    (hne : f2 ≠ f1) :
    (getOrCreateSession (getOrCreateSession st u p f1 t1).2 u p f2 t2).1
        = (getOrCreateSession st u p f1 t1).1 ∧
    (getOrCreateSession
        (endSession (getOrCreateSession st u p f1 t1).2
          (getOrCreateSession st u p f1 t1).1 t3) u p f2 t4).1
      ≠ (getOrCreateSession st u p f1 t1).1 := by
  cases hfind : findActiveSession st u p with
  | some s =>
      have hsmem : s ∈ st.sessions.filter (matchingActive u p) :=
        latestByStart_mem _ _ hfind
      have hfilter : st.sessions.filter (matchingActive u p) = [s] := by
        rcases hl : st.sessions.filter (matchingActive u p) with _ | ⟨a, rest⟩
        · rw [hl] at hsmem
          simp at hsmem
        · rw [hl] at hsmem hone
          have hrest : rest = [] := by
            simp only [List.length_cons] at hone
            exact List.eq_nil_of_length_eq_zero (by omega)
          subst hrest
          simp only [List.mem_singleton] at hsmem
          rw [hsmem]
      have hsin : s ∈ st.sessions := (List.mem_filter.mp hsmem).1
      constructor
      · simp [getOrCreateSession, hfind]
      · have hend : findActiveSession (endSession st s.id t3) u p = none := by
          apply findActiveSession_after_end
          intro y hy hmy
          have hyf : y ∈ st.sessions.filter (matchingActive u p) :=
            List.mem_filter.mpr ⟨hy, hmy⟩
          rw [hfilter] at hyf
          simp only [List.mem_singleton] at hyf
          rw [hyf]
        simp only [getOrCreateSession, hfind, hend]
        intro hcontra
        exact (hfresh s hsin) hcontra.symm
  | none =>
      have hnone : ∀ y ∈ st.sessions, ¬ matchingActive u p y = true :=
        (findActiveSession_eq_none st u p).mp hfind
      have hm_new : matchingActive u p (freshSession u p f1 t1) = true := by
        simp [matchingActive, freshSession]
      have hfilter1 :
          ((st.sessions ++ [freshSession u p f1 t1]).filter (matchingActive u p))
            = [freshSession u p f1 t1] := by
        rw [List.filter_append, List.filter_eq_nil.mpr hnone]
        simp [hm_new]
      have hfind1 :
          findActiveSession
            { st with sessions := st.sessions ++ [freshSession u p f1 t1] } u p
          = some (freshSession u p f1 t1) := by
        unfold findActiveSession
        rw [show ({ st with sessions := st.sessions ++ [freshSession u p f1 t1] } : ChatStore).sessions
          = st.sessions ++ [freshSession u p f1 t1] from rfl, hfilter1]
        rfl
      have hcall1 : getOrCreateSession st u p f1 t1
          = (f1, { st with sessions := st.sessions ++ [freshSession u p f1 t1] }) := by
        simp [getOrCreateSession, hfind]
      constructor
      · rw [hcall1]
        simp only [getOrCreateSession, hfind1]
        rfl
      · have hend :
            findActiveSession
              (endSession
                { st with sessions := st.sessions ++ [freshSession u p f1 t1] } f1 t3)
              u p = none := by
          apply findActiveSession_after_end
          intro y hy hmy
          simp only [List.mem_append, List.mem_singleton] at hy
          cases hy with
          | inl hy => exact absurd hmy (hnone y hy)
          | inr hy => rw [hy]; rfl
        rw [hcall1]
        simp only [getOrCreateSession, hend]
        exact hne

/-- Witness for C5: starting from the empty store, the first call creates
session s1, an immediate second call returns s1 again, and after ending
s1 the next call returns the fresh id s2. -/
theorem getOrCreateSession_lifecycle_witness :
    (getOrCreateSession (getOrCreateSession emptyChatStore "u" "oz" "s1" 1).2
        "u" "oz" "s2" 2).1
      = (getOrCreateSession emptyChatStore "u" "oz" "s1" 1).1 ∧
    (getOrCreateSession
        (endSession (getOrCreateSession emptyChatStore "u" "oz" "s1" 1).2
          (getOrCreateSession emptyChatStore "u" "oz" "s1" 1).1 3) "u" "oz" "s2" 4).1
      ≠ (getOrCreateSession emptyChatStore "u" "oz" "s1" 1).1 :=
  getOrCreateSession_lifecycle emptyChatStore "u" "oz" "s1" "s2" 1 2 3 4
    (by simp [emptyChatStore]) (by simp [emptyChatStore]) (by decide)

/-- Per-trick accumulator of KnowledgeBuilder.analyzeSuccessfulTricks
(userMemory.ts lines 320-339): attempts, successes, and the collected
non-empty context and lesson texts. -/
structure TrickStat where
  attempts : ℕ
  successes : ℕ
  contexts : List String
  insights : List String
deriving DecidableEq, Repr

/-- Zero-initialised accumulator entry (userMemory.ts lines 325-330). -/
def initTrickStat : TrickStat :=
  { attempts := 0, successes := 0, contexts := [], insights := [] }

/-- One forEach step over a row (userMemory.ts lines 333-338): count the
attempt, count amazed/engaged as success, and push truthy (non-empty)
context and lesson strings. -/
def bumpStat (st : TrickStat) (e : Experience) : TrickStat :=
  { attempts := st.attempts + 1,
    successes := st.successes + (if isSuccessReaction e.user_reaction then 1 else 0),
    contexts := if e.context ≠ "" then st.contexts ++ [e.context] else st.contexts,
    insights := if e.lesson_learned ≠ "" then st.insights ++ [e.lesson_learned] else st.insights }

/-- The trickStats record object, modelled as an association list in key
insertion order (JavaScript string-keyed objects preserve insertion
order, which Object.entries later reads back). -/
def addExperience (acc : List (String × TrickStat)) (e : Experience) :
    List (String × TrickStat) :=
  if acc.any (fun pr => pr.1 == e.trick_performed) then
    acc.map (fun pr =>
      if pr.1 == e.trick_performed then (pr.1, bumpStat pr.2 e) else pr)
  else acc ++ [(e.trick_performed, bumpStat initTrickStat e)]

/-- Grouping loop of analyzeSuccessfulTricks (userMemory.ts lines 322-339). -/
def trickGroups (exps : List Experience) : List (String × TrickStat) :=
  exps.foldl addExperience []

/-- Split on runs of whitespace, modelling the split(/\s+/) of
userMemory.ts line 360; empty fragments are discarded later by the
length filter exactly as in the source. -/
def splitWhitespace (s : String) : List String :=
  s.split (fun c => c.isWhitespace)

/-- Word-frequency record of extractCommonContexts
(userMemory.ts lines 361-367), as an association list in first-seen
order. -/
def bumpFreq (acc : List (String × ℕ)) (w : String) : List (String × ℕ) :=
  if acc.any (fun pr => pr.1 == w) then
    acc.map (fun pr => if pr.1 == w then (pr.1, pr.2 + 1) else pr)
  else acc ++ [(w, 1)]

/-- Stable insertion sort descending by a key, placing an element before
every later element whose key is not larger. A stable sort over a total
preorder has a unique result, so this models the stable
Array.prototype.sort of the source with a numeric comparator. -/
def insertByKeyDesc {α β : Type} [LinearOrder β] (key : α → β) (x : α) :
    List α → List α
  | [] => [x]
  | y :: ys => if key y ≤ key x then x :: y :: ys else y :: insertByKeyDesc key x ys

/-- Full stable descending sort by key. -/
def sortByKeyDesc {α β : Type} [LinearOrder β] (key : α → β) : List α → List α
  | [] => []
  | x :: xs => insertByKeyDesc key x (sortByKeyDesc key xs)

/-- Embedding of KnowledgeBuilder.extractCommonContexts
(userMemory.ts lines 356-373): sentinel on no contexts, else the top 3
words longer than 4 characters by frequency. -/
def extractCommonContexts (contexts : List String) : List String :=
  if contexts.isEmpty then ["Various situations"]
  else
    let words := splitWhitespace ((String.intercalate " " contexts).toLower)
    let freq := words.foldl (fun acc w => if w.length > 4 then bumpFreq acc w else acc) []
    ((sortByKeyDesc (fun pr => (pr.2 : ℤ)) freq).take 3).map (fun pr => pr.1)

/-- Embedding of KnowledgeBuilder.synthesizeInsights
(userMemory.ts lines 378-384): sentinel, the single insight, or the most
recent one. -/
def synthesizeInsights (insights : List String) : String :=
  match insights with
  | [] => "Consistent performance"
  | [single] => single
  | xs => xs.getLastD ""

/-- Output row of analyzeSuccessfulTricks (the TrickPattern object of
userMemory.ts lines 203-209). The successRate string produced by
toFixed(1) is modelled by its numeric value: the percentage rounded to
one decimal (round half away from zero on nonnegative values, the
toFixed tie rule), which is also the value parseFloat recovers for the
sort comparator. -/
structure TrickPattern where
  name : String
  successRate : ℚ
  bestContexts : List String
  keyInsight : String
  timesPerformed : ℕ
deriving DecidableEq, Repr

/-- The ((successes/attempts)*100).toFixed(1) value in tenths of a
percent (userMemory.ts line 344). -/
def rateKey (successes attempts : ℕ) : ℤ :=
  round ((1000 * (successes : ℚ)) / (attempts : ℚ))

/-- Map of one Object.entries pair to its TrickPattern
(userMemory.ts lines 341-348). -/
def toTrickPattern (pr : String × TrickStat) : TrickPattern :=
  { name := pr.1,
    successRate := (rateKey pr.2.successes pr.2.attempts : ℚ) / 10,
    bestContexts := extractCommonContexts pr.2.contexts,
    keyInsight := synthesizeInsights pr.2.insights,
    timesPerformed := pr.2.attempts }

/-- Embedding of KnowledgeBuilder.analyzeSuccessfulTricks
(userMemory.ts lines 319-351): group, map to patterns, sort descending
by the parsed successRate with the stable sort, keep the top 5. -/
def analyzeSuccessfulTricks (exps : List Experience) : List TrickPattern :=
  (sortByKeyDesc (fun t => t.successRate) ((trickGroups exps).map toTrickPattern)).take 5

lemma insertByKeyDesc_perm {α β : Type} [LinearOrder β] (key : α → β) (x : α)
    (l : List α) : (insertByKeyDesc key x l).Perm (x :: l) := by
  induction l with
  | nil => exact List.Perm.refl _
  | cons y ys ih =>
      unfold insertByKeyDesc
      split_ifs with h
      · exact List.Perm.refl _
      · exact (ih.cons y).trans (List.Perm.swap x y ys)

lemma sortByKeyDesc_perm {α β : Type} [LinearOrder β] (key : α → β) (l : List α) :
    (sortByKeyDesc key l).Perm l := by
  induction l with
  | nil => exact List.Perm.refl _
  | cons x xs ih => exact (insertByKeyDesc_perm key x _).trans (ih.cons x)

lemma insertByKeyDesc_pairwise {α β : Type} [LinearOrder β] (key : α → β) (x : α)
    (l : List α) (h : l.Pairwise (fun a b => key b ≤ key a)) :
    (insertByKeyDesc key x l).Pairwise (fun a b => key b ≤ key a) := by
  induction l with
  | nil => simp [insertByKeyDesc]
  | cons y ys ih =>
      rw [List.pairwise_cons] at h
      obtain ⟨hy, hys⟩ := h
      unfold insertByKeyDesc
      split_ifs with hc
      · rw [List.pairwise_cons]
        refine ⟨?_, List.pairwise_cons.mpr ⟨hy, hys⟩⟩
        intro b hb
        rcases List.mem_cons.mp hb with hb1 | hb2
        · rw [hb1]
          exact hc
        · exact le_trans (hy b hb2) hc
      · rw [List.pairwise_cons]
        refine ⟨?_, ih hys⟩
        intro b hb
        have hmem := (insertByKeyDesc_perm key x ys).mem_iff.mp hb
        rcases List.mem_cons.mp hmem with hb1 | hb2
        · rw [hb1]
          exact le_of_lt (lt_of_not_le hc)
        · exact hy b hb2

lemma sortByKeyDesc_pairwise {α β : Type} [LinearOrder β] (key : α → β) (l : List α) :
    (sortByKeyDesc key l).Pairwise (fun a b => key b ≤ key a) := by
  induction l with
  | nil => simp [sortByKeyDesc]
  | cons x xs ih => exact insertByKeyDesc_pairwise key x _ ih

/-- Row test: the experience belongs to the named technique group. -/
def trickPred (name : String) : Experience → Bool :=
  fun e => e.trick_performed == name

/-- Row test: the experience belongs to the group and counts as a
success (amazed or engaged). -/
def trickSuccPred (name : String) : Experience → Bool :=
  fun e => e.trick_performed == name && isSuccessReaction e.user_reaction

lemma trickGroups_loop :
    ∀ (rest processed : List Experience) (acc : List (String × TrickStat)),
    (∀ pr ∈ acc,
        pr.2.attempts = processed.countP (trickPred pr.1) ∧
        pr.2.successes = processed.countP (trickSuccPred pr.1) ∧
        0 < pr.2.attempts) →
    (∀ e ∈ processed, ∃ pr ∈ acc, pr.1 = e.trick_performed) →
    ∀ pr ∈ rest.foldl addExperience acc,
        pr.2.attempts = (processed ++ rest).countP (trickPred pr.1) ∧
        pr.2.successes = (processed ++ rest).countP (trickSuccPred pr.1) ∧
        0 < pr.2.attempts := by
  intro rest
  induction rest with
  | nil =>
      intro processed acc hstats _hkeys pr hpr
      simpa using hstats pr hpr
  | cons e es ih =>
      intro processed acc hstats hkeys pr hpr
      rw [List.foldl_cons] at hpr
      have hstats2 : ∀ pr2 ∈ addExperience acc e,
          pr2.2.attempts = (processed ++ [e]).countP (trickPred pr2.1) ∧
          pr2.2.successes = (processed ++ [e]).countP (trickSuccPred pr2.1) ∧
          0 < pr2.2.attempts := by
        intro pr2 hpr2
        unfold addExperience at hpr2
        split_ifs at hpr2 with hany
        · rw [List.mem_map] at hpr2
          obtain ⟨pr0, hpr0, heq⟩ := hpr2
          obtain ⟨ha, hs, hpos⟩ := hstats pr0 hpr0
          by_cases hkey : pr0.1 = e.trick_performed
          · rw [if_pos (by simp [hkey])] at heq
            subst heq
            refine ⟨?_, ?_, by simp [bumpStat]⟩
            · simp only [bumpStat, List.countP_append, List.countP_cons,
                List.countP_nil, trickPred, ha]
              have hbeq : (e.trick_performed == pr0.1) = true := by simp [hkey]
              simp [hbeq]
            · simp only [bumpStat, List.countP_append, List.countP_cons,
                List.countP_nil, trickSuccPred, hs]
              have hbeq : (e.trick_performed == pr0.1) = true := by simp [hkey]
              simp [hbeq]
          · rw [if_neg (by simp [hkey])] at heq
            subst heq
            have hne : (e.trick_performed == pr0.1) = false := by
              simp
              intro hcontra
              exact hkey hcontra.symm
            refine ⟨?_, ?_, hpos⟩
            · simp only [List.countP_append, List.countP_cons, List.countP_nil,
                trickPred, ha, hne]
              simp
            · simp only [List.countP_append, List.countP_cons, List.countP_nil,
                trickSuccPred, hs, hne]
              simp
        · rw [List.mem_append, List.mem_singleton] at hpr2
          have hnone : ∀ pr0 ∈ acc, (pr0.1 == e.trick_performed) = false := by
            intro pr0 h0
            by_contra hx
            rw [Bool.not_eq_false] at hx
            exact hany (List.any_eq_true.mpr ⟨pr0, h0, hx⟩)
          cases hpr2 with
          | inl h2 =>
              obtain ⟨ha, hs, hpos⟩ := hstats pr2 h2
              have hne : (e.trick_performed == pr2.1) = false := by
                have := hnone pr2 h2
                simp at this ⊢
                intro hcontra
                exact this hcontra.symm
              refine ⟨?_, ?_, hpos⟩
              · simp only [List.countP_append, List.countP_cons, List.countP_nil,
                  trickPred, ha, hne]
                simp
              · simp only [List.countP_append, List.countP_cons, List.countP_nil,
                  trickSuccPred, hs, hne]
                simp
          | inr h2 =>
              have hcount0 : processed.countP (trickPred e.trick_performed) = 0 := by
                rw [List.countP_eq_zero]
                intro e2 he2 hpe
                obtain ⟨pr1, hpr1, hkey1⟩ := hkeys e2 he2
                have hbe : (pr1.1 == e.trick_performed) = true := by
                  rw [beq_iff_eq, hkey1]
                  exact beq_iff_eq.mp hpe
                rw [hnone pr1 hpr1] at hbe
                exact Bool.false_ne_true hbe
              have hcount0s : processed.countP (trickSuccPred e.trick_performed) = 0 := by
                rw [List.countP_eq_zero]
                intro e2 he2 hpe
                rw [trickSuccPred, Bool.and_eq_true] at hpe
                exact List.countP_eq_zero.mp hcount0 e2 he2 hpe.1
              subst h2
              refine ⟨?_, ?_, by simp [bumpStat]⟩
              · simp only [bumpStat, initTrickStat, List.countP_append,
                  List.countP_cons, List.countP_nil, trickPred, hcount0]
                simp
              · simp only [bumpStat, initTrickStat, List.countP_append,
                  List.countP_cons, List.countP_nil, trickSuccPred, hcount0s]
                simp
      have hkeys2 : ∀ e2 ∈ processed ++ [e],
          ∃ pr2 ∈ addExperience acc e, pr2.1 = e2.trick_performed := by
        intro e2 he2
        rw [List.mem_append, List.mem_singleton] at he2
        unfold addExperience
        split_ifs with hany
        · cases he2 with
          | inl h2 =>
              obtain ⟨pr1, hpr1, hkey1⟩ := hkeys e2 h2
              refine ⟨(if pr1.1 == e.trick_performed then (pr1.1, bumpStat pr1.2 e) else pr1),
                List.mem_map_of_mem _ hpr1, ?_⟩
              split_ifs <;> simpa using hkey1
          | inr h2 =>
              rw [List.any_eq_true] at hany
              obtain ⟨pr1, hpr1, hkeyb⟩ := hany
              refine ⟨(if pr1.1 == e.trick_performed then (pr1.1, bumpStat pr1.2 e) else pr1),
                List.mem_map_of_mem _ hpr1, ?_⟩
              have hk : pr1.1 = e.trick_performed := beq_iff_eq.mp hkeyb
              rw [h2]
              split_ifs <;> simpa using hk
        · cases he2 with
          | inl h2 =>
              obtain ⟨pr1, hpr1, hkey1⟩ := hkeys e2 h2
              exact ⟨pr1, List.mem_append_left _ hpr1, hkey1⟩
          | inr h2 =>
              exact ⟨(e.trick_performed, bumpStat initTrickStat e),
                List.mem_append_right _ (List.mem_singleton_self _), by rw [h2]⟩
      have hres := ih (processed ++ [e]) (addExperience acc e) hstats2 hkeys2 pr hpr
      simpa [List.append_assoc] using hres

/-- C8 amended: the top-techniques list groups the window by technique
(per listed group, timesPerformed counts exactly the rows with that
technique and successRate is the percentage of amazed/engaged rows
rounded to one decimal), is ranked descending by that successRate alone
with the stable sort leaving ties in first-appearance order, and keeps
at most 5 groups; there is no tie-break by attempt count. -/
theorem analyzeSuccessfulTricks_spec (exps : List Experience) :
    (analyzeSuccessfulTricks exps).length ≤ 5 ∧
    (analyzeSuccessfulTricks exps).Pairwise
      (fun x y => y.successRate ≤ x.successRate) ∧
    ∀ p ∈ analyzeSuccessfulTricks exps,
      0 < p.timesPerformed ∧
      p.timesPerformed = exps.countP (trickPred p.name) ∧
      p.successRate
        = (rateKey (exps.countP (trickSuccPred p.name))
            (exps.countP (trickPred p.name)) : ℚ) / 10 := by
  refine ⟨?_, ?_, ?_⟩
  · unfold analyzeSuccessfulTricks
    exact List.length_take_le 5 _
  · unfold analyzeSuccessfulTricks
    exact List.Pairwise.sublist (List.take_sublist 5 _)
      (sortByKeyDesc_pairwise (fun t : TrickPattern => t.successRate)
        ((trickGroups exps).map toTrickPattern))
  · intro p hp
    unfold analyzeSuccessfulTricks at hp
    have hp2 : p ∈ sortByKeyDesc (fun t => t.successRate)
        ((trickGroups exps).map toTrickPattern) := List.mem_of_mem_take hp
    have hp3 : p ∈ (trickGroups exps).map toTrickPattern :=
      (sortByKeyDesc_perm _ _).mem_iff.mp hp2
    rw [List.mem_map] at hp3
    obtain ⟨pr, hpr, rfl⟩ := hp3
    have hstats := trickGroups_loop exps [] [] (by simp) (by simp) pr hpr
    obtain ⟨ha, hs, hpos⟩ := hstats
    refine ⟨by simpa [toTrickPattern] using hpos, ?_, ?_⟩
    · simp only [toTrickPattern]
      rw [ha]
      simp
    · simp only [toTrickPattern]
      rw [ha, hs]
      simp

/-- A neutral-reaction experience row used by the C8 counterexample. -/
def neutralExp (i trick : String) : Experience :=
  { id := i, mentalist_id := "oz", user_id := "u", session_id := i,
    timestamp := 0, conversation_summary := "", trick_performed := trick,
    user_reaction := Reaction.neutral, user_sentiment := 0, what_worked := "",
    what_didnt_work := "", lesson_learned := "", message_count := 1,
    duration_seconds := 1, context := "" }

/-- C8 counterexample window: technique a once, technique b twice, all
with successRate 0. -/
def c8List : List Experience :=
  [neutralExp "e1" "a", neutralExp "e2" "b", neutralExp "e3" "b"]

/-- Expected first output pattern of the C8 counterexample. -/
def patA : TrickPattern :=
  { name := "a", successRate := 0, bestContexts := ["Various situations"],
    keyInsight := "Consistent performance", timesPerformed := 1 }

/-- Expected second output pattern of the C8 counterexample. -/
def patB : TrickPattern :=
  { name := "b", successRate := 0, bestContexts := ["Various situations"],
    keyInsight := "Consistent performance", timesPerformed := 2 }

lemma trickGroups_c8_eval :
    trickGroups c8List
      = [("a", { attempts := 1, successes := 0, contexts := [], insights := [] }),
         ("b", { attempts := 2, successes := 0, contexts := [], insights := [] })] := by
  decide

lemma analyzeSuccessfulTricks_c8_eval :
    analyzeSuccessfulTricks c8List = [patA, patB] := by
  unfold analyzeSuccessfulTricks
  rw [trickGroups_c8_eval]
  have hkey : rateKey 0 1 = 0 := by
    unfold rateKey
    norm_num
  have hkey2 : rateKey 0 2 = 0 := by
    unfold rateKey
    norm_num
  simp only [List.map_cons, List.map_nil, toTrickPattern, hkey, hkey2]
  norm_num [sortByKeyDesc, insertByKeyDesc, patA, patB,
    extractCommonContexts, synthesizeInsights]

/-- C8 counterexample: on the window with technique a (1 attempt) before
technique b (2 attempts), both at successRate 0, the output keeps a
before b, refuting the claimed tie-break by attempt count descending. -/
theorem analyzeSuccessfulTricks_tiebreak_counterexample :
    ((analyzeSuccessfulTricks c8List).map (fun p => (p.name, p.timesPerformed))
      = [("a", 1), ("b", 2)]) ∧
    ((analyzeSuccessfulTricks c8List).map (fun p => p.successRate) = [0, 0]) ∧
    ¬ (analyzeSuccessfulTricks c8List).Pairwise
        (fun x y => y.successRate < x.successRate ∨
          (x.successRate = y.successRate ∧ y.timesPerformed ≤ x.timesPerformed)) := by
  rw [analyzeSuccessfulTricks_c8_eval]
  refine ⟨by simp [patA, patB], by simp [patA, patB], ?_⟩
  intro hpw
  rw [List.pairwise_cons] at hpw
  have := hpw.1 patB (by simp)
  rcases this with hlt | ⟨_heq, hle⟩
  · exact absurd hlt (by simp [patA, patB])
  · exact absurd hle (by simp [patA, patB])

/-- Witness for the amended C8 theorem: instantiating it on the
counterexample window at the listed pattern for technique a gives its
attempt count 1, matching the count of rows with that technique. -/
theorem analyzeSuccessfulTricks_spec_witness :
    0 < patA.timesPerformed ∧
    patA.timesPerformed = c8List.countP (trickPred patA.name) ∧
    patA.successRate
      = (rateKey (c8List.countP (trickSuccPred patA.name))
          (c8List.countP (trickPred patA.name)) : ℚ) / 10 :=
  (analyzeSuccessfulTricks_spec c8List).2.2 patA
    (by rw [analyzeSuccessfulTricks_c8_eval]; simp)
